import Mathlib

/-!
Shallow embedding of the evolution orchestrator
(src/orchestrator/src/main.rs and src/orchestrator/src/config.rs).

External effects (subprocesses, the git tool, the file system) are modelled
by explicit oracles passed as arguments: a call to an external command is a
lookup in the oracle, where `none` models a spawn failure (the process could
not be started, the Rust side `Result::Err` propagated by the question-mark
operator) and `some st` models a process that ran and reported exit
success `st`.  Strings are treated as their character sequences; all the
command output the program slices is ASCII, so character counts coincide
with Rust byte counts.
-/

deriving instance DecidableEq for Except

/-- Character-list prefix test (kernel-reducible replacement for the
position-based core string functions). -/
def isPrefixL : List Char → List Char → Bool
  | [], _ => true
  | _ :: _, [] => false
  | a :: as, b :: bs => a = b && isPrefixL as bs

/-- Character-list substring test. -/
def containsL (pat : List Char) : List Char → Bool
  | [] => isPrefixL pat []
  | c :: rest => isPrefixL pat (c :: rest) || containsL pat rest

/-- Rust `str::contains` (substring test), used on `"lib.rs"` and `"test"`. -/
def containsSub (s pat : String) : Bool :=
  containsL pat.toList s.toList

/-- Rust `str::ends_with`. -/
def endsWithS (s pat : String) : Bool :=
  isPrefixL pat.toList.reverse s.toList.reverse

/-- Rust `str::starts_with`. -/
def startsWithS (s pat : String) : Bool :=
  isPrefixL pat.toList s.toList

/-- Helper for `tokens`: accumulate the current word while scanning. -/
def tokensAux : List Char → List Char → List (List Char)
  | [], acc => if acc = [] then [] else [acc.reverse]
  | c :: cs, acc =>
    if c.isWhitespace then
      if acc = [] then tokensAux cs [] else acc.reverse :: tokensAux cs []
    else tokensAux cs (c :: acc)

/-- Rust `str::split_whitespace`: the maximal non-whitespace runs, in order. -/
def tokens (s : String) : List String :=
  (tokensAux s.toList []).map String.mk

/-- Helper for `splitOnChar`. -/
def splitOnCharAux (sep : Char) : List Char → List Char → List (List Char)
  | [], acc => [acc.reverse]
  | c :: cs, acc =>
    if c = sep then acc.reverse :: splitOnCharAux sep cs []
    else splitOnCharAux sep cs (c :: acc)

/-- Rust `str::split c` for a single separator character (also used for
`str::lines`, whose only difference is dropping a final empty piece that no
caller here observes). -/
def splitOnChar (sep : Char) (s : String) : List String :=
  (splitOnCharAux sep s.toList []).map String.mk

/-- Rust `str::trim`. -/
def trimS (s : String) : String :=
  String.mk (((s.toList.dropWhile Char.isWhitespace).reverse.dropWhile
    Char.isWhitespace).reverse)

/-- Rust `str::trim_matches c`: drop every leading and trailing copy of `c`. -/
def trimChar (c : Char) (s : String) : String :=
  String.mk (((s.toList.dropWhile (fun x => x = c)).reverse.dropWhile
    (fun x => x = c)).reverse)

/-- Join a list of strings with a separator (Rust `Vec::join`). -/
def intercalateS (sep : String) : List String → String
  | [] => ""
  | [x] => x
  | x :: y :: rest => x ++ sep ++ intercalateS sep (y :: rest)

/-- Concatenation of a list of strings. -/
def joinS (l : List String) : String :=
  l.foldl (fun a b => a ++ b) ""

/-- Rust `&s[0..7]`: the first seven bytes of `s`, `none` when the slice
panics because `s` is shorter than seven bytes (main.rs lines 57 and 261). -/
def sliceFirstSeven (s : String) : Option String :=
  if s.toList.length < 7 then none else some (String.mk (s.toList.take 7))

/-- Parent directory of a relative path, as `Path::parent` sees it under the
target directory: `none` when the path has a single component, in which case
the parent is the target directory itself and already exists. -/
def parentOf (p : String) : Option String :=
  let comps := splitOnChar '/' p
  if comps.length ≤ 1 then none
  else some (intercalateS "/" comps.dropLast)

/-- config.rs `EvolutionSettings`. -/
structure EvolutionSettings where
  instruction : String
  test_command : String
  max_generations : Nat
  files : List String
  project_type : Option String
  bootstrap_command : Option String
  file_extension : Option String
  scaffold_content : Option String
  primary_file : Option String
deriving DecidableEq

/-- config.rs default for `test_command`. -/
def default_test_cmd : String := "cargo nextest run"

/-- config.rs default for `max_generations`. -/
def default_generations : Nat := 5

/-- config.rs default for `files`. -/
def default_files : List String := ["src/lib.rs"]

/-- The file system under the target directory: an association list of file
paths to contents (earlier entries shadow later ones) plus the set of
directories that exist. -/
structure FS where
  entries : List (String × String)
  dirs : List String
deriving DecidableEq

def FS.existsFile (fs : FS) (p : String) : Bool :=
  fs.entries.any (fun e => e.1 = p)

def FS.readFile (fs : FS) (p : String) : Option String :=
  (fs.entries.find? (fun e => e.1 = p)).map (fun e => e.2)

def FS.writeFile (fs : FS) (p c : String) : FS :=
  ⟨(p, c) :: fs.entries, fs.dirs⟩

def FS.hasDir (fs : FS) (d : String) : Bool :=
  fs.dirs.any (fun x => x = d)

def FS.mkdirAll (fs : FS) (d : String) : FS :=
  ⟨fs.entries, d :: fs.dirs⟩

/-- main.rs `infer_project_type`: first file ending in `.rs` gives rust,
first ending in `.py` gives python, otherwise none. -/
def infer_project_type : List String → Option String
  | [] => none
  | f :: rest =>
    if endsWithS f ".rs" then some "rust"
    else if endsWithS f ".py" then some "python"
    else infer_project_type rest

/-- The recognized-extension map, used to restate `infer_project_type` in the
form the spec uses (first file with a recognized extension wins). -/
def recognizeExt (f : String) : Option String :=
  if endsWithS f ".rs" then some "rust"
  else if endsWithS f ".py" then some "python"
  else none

/-- main.rs `infer_scaffold_content`. -/
def infer_scaffold_content (filename : String) (explicit_ext : Option String) :
    String :=
  match explicit_ext with
  | some ext =>
    if ext = ".rs" then "// TODO: Implement\n"
    else if ext = ".py" then "# TODO: Implement\n"
    else "// TODO: Implement\n"
  | none =>
    if endsWithS filename ".rs" then "// TODO: Implement\n"
    else if endsWithS filename ".py" then "# TODO: Implement\n"
    else "// TODO: Implement\n"

/-- Content written for a missing scaffolded file (main.rs lines 182-187):
explicit `scaffold_content` first, else inference. -/
def scaffoldChoice (s : EvolutionSettings) (filename : String) : String :=
  match s.scaffold_content with
  | some c => c
  | none => infer_scaffold_content filename s.file_extension

/-- Result of a process that ran to completion: its exit success and stdout. -/
structure CmdResult where
  success : Bool
  stdout : String
deriving DecidableEq

/-- Oracle for the five git invocations of `ensure_git_clean_state`;
`none` at a field models a spawn failure of that invocation. -/
structure GitOracle where
  gitDirExists : Bool
  init : Option CmdResult
  add : Option CmdResult
  diffCached : Option CmdResult
  commit : Option CmdResult
  revParse : Option CmdResult
deriving DecidableEq

/-- Outcome classes of `run_agent_mutation` as the loop distinguishes them. -/
inductive AgentResult
  | ok
  | err
deriving DecidableEq

/-- Outcome classes of `verify_fitness` as the three loop match arms
distinguish them: `Ok(true)`, `Ok(false)`, `Err(_)`. -/
inductive VerifyResult
  | pass
  | fail
  | crash
deriving DecidableEq

/-- The external world of one generation: what the agent subprocess does,
what the fitness verification does, and whether the two git commands of
`revert_to_snapshot` can be spawned. -/
structure GenEnv where
  agent : AgentResult
  verify : VerifyResult
  revertOk : Bool
deriving DecidableEq

/-- Observable events of a run, in order of occurrence. -/
inductive MEvent
  | bootCmd (prog : String) (args : List String)
  | cargoInit (initType : String)
  | scaffold (f : String)
  | gitInit
  | gitAdd
  | gitDiff
  | gitCommit
  | gitRevParse
  | baseline (sha : String)
  | mutate (g : Nat)
  | revert (target : String)
deriving DecidableEq

/-- Final outcome of a run. -/
inductive Outcome
  | succeeded (g : Nat)
  | exhausted
  | abortedBootstrap
  | abortedVcs
  | panickedShortSha
deriving DecidableEq

/-- Parent-directory creation for one scaffolded file (main.rs lines
176-180): `create_dir_all` when the parent does not exist yet. -/
def ensureParent (fs : FS) (f : String) : FS :=
  match parentOf f with
  | some d => if fs.hasDir d then fs else fs.mkdirAll d
  | none => fs

/-- Scaffolding of one file (main.rs lines 174-192): ensure the parent
directory, then create the file with the chosen content when it is missing. -/
def scaffoldFile (s : EvolutionSettings) (fs : FS) (f : String) :
    List MEvent × FS :=
  let fs1 := ensureParent fs f
  if fs1.existsFile f then ([], fs1)
  else ([MEvent.scaffold f], fs1.writeFile f (scaffoldChoice s f))

/-- Scaffolding of every listed file, in order. -/
def scaffoldAll (s : EvolutionSettings) (fs : FS) : List String → List MEvent × FS
  | [] => ([], fs)
  | f :: rest =>
    let r1 := scaffoldFile s fs f
    let r2 := scaffoldAll s r1.2 rest
    (r1.1 ++ r2.1, r2.2)

/-- The project type the bootstrapper acts on (main.rs lines 133-136):
the explicit `project_type`, else the inferred one. -/
def resolvedProjectType (s : EvolutionSettings) : Option String :=
  match s.project_type with
  | some t => some t
  | none => infer_project_type s.files

/-- The initializer flag for a rust project (main.rs lines 140-141). -/
def cargoInitType (s : EvolutionSettings) : String :=
  if s.files.any (fun f => containsSub f "lib.rs") then "--lib" else "--bin"

/-- First phase of `bootstrap_project` (main.rs lines 107-171): run the
configured bootstrap command, or fall back to project-type detection and the
cargo initializer.  `run` is the subprocess oracle; `cargoToml` and
`pyproject` say whether the two recognized manifests exist. -/
def bootstrapPhase1 (run : String → List String → Option Bool)
    (cargoToml pyproject : Bool) (s : EvolutionSettings) :
    List MEvent × Except Unit Unit :=
  match s.bootstrap_command with
  | some cmd =>
    match tokens cmd with
    | [] => ([], Except.ok ())
    | prog :: args =>
      match run prog args with
      | none => ([MEvent.bootCmd prog args], Except.error ())
      | some _ => ([MEvent.bootCmd prog args], Except.ok ())
  | none =>
    if !cargoToml && !pyproject then
      match resolvedProjectType s with
      | some t =>
        if t = "rust" then
          match run "cargo" ["init", cargoInitType s] with
          | none => ([MEvent.cargoInit (cargoInitType s)], Except.error ())
          | some true => ([MEvent.cargoInit (cargoInitType s)], Except.ok ())
          | some false => ([MEvent.cargoInit (cargoInitType s)], Except.error ())
        else ([], Except.ok ())
      | none => ([], Except.ok ())
    else ([], Except.ok ())

/-- main.rs `bootstrap_project`: phase one, then scaffolding of the listed
files. -/
def bootstrap_project (run : String → List String → Option Bool)
    (cargoToml pyproject : Bool) (fs : FS) (s : EvolutionSettings) :
    List MEvent × Except Unit FS :=
  match bootstrapPhase1 run cargoToml pyproject s with
  | (evs, Except.error e) => (evs, Except.error e)
  | (evs, Except.ok _) =>
    let r := scaffoldAll s fs s.files
    (evs ++ r.1, Except.ok r.2)

/-- main.rs `ensure_git_clean_state`: init the repository when no `.git`
exists, stage everything, commit a Genesis checkpoint when the staged diff
check reports differences, and return the trimmed stdout of rev-parse.
Only spawn failures (`none` in the oracle) propagate an error: the exit
statuses of init, add, commit and rev-parse are never inspected. -/
def ensure_git_clean_state (w : GitOracle) : List MEvent × Except Unit String :=
  let initStep : List MEvent × Option Unit :=
    if w.gitDirExists then ([], some ())
    else match w.init with
      | none => ([MEvent.gitInit], none)
      | some _ => ([MEvent.gitInit], some ())
  match initStep with
  | (evs, none) => (evs, Except.error ())
  | (evs, some _) =>
    match w.add with
    | none => (evs ++ [MEvent.gitAdd], Except.error ())
    | some _ =>
      match w.diffCached with
      | none => (evs ++ [MEvent.gitAdd, MEvent.gitDiff], Except.error ())
      | some d =>
        let commitStep : List MEvent × Option Unit :=
          if d.success then ([], some ())
          else match w.commit with
            | none => ([MEvent.gitCommit], none)
            | some _ => ([MEvent.gitCommit], some ())
        match commitStep with
        | (cevs, none) =>
          (evs ++ [MEvent.gitAdd, MEvent.gitDiff] ++ cevs, Except.error ())
        | (cevs, some _) =>
          match w.revParse with
          | none =>
            (evs ++ [MEvent.gitAdd, MEvent.gitDiff] ++ cevs
              ++ [MEvent.gitRevParse], Except.error ())
          | some r =>
            (evs ++ [MEvent.gitAdd, MEvent.gitDiff] ++ cevs
              ++ [MEvent.gitRevParse], Except.ok (trimS r.stdout))

/-- main.rs `revert_to_snapshot`: the log line slices the first seven bytes
of the snapshot id (a panic, `none`, when it is shorter), then issues
`git reset --hard sha` and `git clean -fd`. -/
def revert_to_snapshot (sha : String) : Option (List (List String)) :=
  match sliceFirstSeven sha with
  | none => none
  | some _ => some [["reset", "--hard", sha], ["clean", "-fd"]]

/-- main.rs `language_name`. -/
def language_name (project_type : String) : String :=
  if project_type = "rust" then "Rust"
  else if project_type = "python" then "Python"
  else "Software"

/-- main.rs `default_test_command`. -/
def default_test_command (project_type : String) : String :=
  if project_type = "rust" then "cargo test"
  else if project_type = "python" then "pytest"
  else "cargo test"

/-- main.rs `get_code_quality_requirements` (Rust string continuations eat
the following indentation, so every line starts at its dash). -/
def get_code_quality_requirements (project_type : String) : String :=
  if project_type = "rust" then
    "- Write idiomatic Rust code with proper error handling using Result<T, E>\n- Follow Rust naming conventions (snake_case for functions, CamelCase for types)\n- Add documentation comments (///) for public APIs\n- Ensure code compiles without warnings\n- Use appropriate ownership and borrowing patterns\n- Leverage the type system for safety (avoid unwrap() in production code)\n"
  else if project_type = "python" then
    "- Write idiomatic Python code following PEP 8 style guidelines\n- Add type hints for function signatures\n- Include docstrings for modules, classes, and functions\n- Use appropriate error handling with try/except blocks\n- Follow Python naming conventions (snake_case for functions, PascalCase for classes)\n- Ensure code passes linting (no unused imports, proper formatting)\n"
  else
    "- Write clean, maintainable code\n- Follow language best practices\n"

/-- main.rs `get_test_quality_requirements`. -/
def get_test_quality_requirements (project_type : String) : String :=
  if project_type = "rust" then
    "- Write comprehensive tests covering edge cases:\n* Base cases (e.g., 0, 1 for recursive functions)\n* Boundary values (empty collections, max/min values)\n* Error conditions (invalid inputs)\n- Use descriptive test names that explain what is being tested:\n* Good: test_fibonacci_returns_zero_for_input_zero\n* Bad: test1, test_fib\n- Group related tests in test modules using mod tests \x7b ... \x7d\n- Use #[should_panic] or Result<()> for tests expecting errors\n- Consider property-based testing with proptest for complex logic\n- Test both success and failure paths\n"
  else if project_type = "python" then
    "- Write comprehensive tests covering edge cases:\n* Base cases and boundary values\n* Empty inputs, None values\n* Error conditions and exceptions\n- Use descriptive test names following test_<what>_<condition>_<expected> pattern:\n* Good: test_fibonacci_with_zero_returns_zero\n* Bad: test1, test_fib\n- Use pytest fixtures for setup and teardown\n- Use pytest.mark.parametrize for testing multiple inputs\n- Test both positive and negative cases\n- Use pytest.raises for exception testing\n- Include both unit tests and integration tests\n"
  else
    "- Write comprehensive tests covering edge cases\n- Use descriptive test names\n- Test both success and failure paths\n"

/-- The TDD protocol block of `build_enhanced_prompt` (main.rs lines 377-388). -/
def tddProtocol (test_command : String) : String :=
  "TDD PROTOCOL:\n1. ANALYZE: Review existing code structure in the tracked files\n2. TEST FIRST: Write comprehensive failing tests that cover:\n- Happy path scenarios (normal, expected usage)\n- Edge cases and boundary conditions (empty inputs, zero, negative numbers, etc.)\n- Error handling (invalid inputs, resource failures)\n3. IMPLEMENT: Write minimal, clean code to pass all tests\n4. REFACTOR: Improve code quality while keeping tests green\n5. VERIFY: Ensure all tests pass with `" ++ test_command ++ "`\n\n"

/-- The constraints block of `build_enhanced_prompt` (main.rs lines 394-400). -/
def constraintsText : String :=
  "CONSTRAINTS:\n- Do NOT delete existing valid tests\n- Maintain backward compatibility with existing code\n- Follow the project\x27s existing code style and conventions\n- Write production-quality code, not just code that passes tests\n"

/-- Rust `Path::file_name` on the target directory, with the
`unwrap_or("project")` fallback: the last normal path component. -/
def projectName (target_dir : String) : String :=
  match ((splitOnChar '/' target_dir).filter (fun c => c ≠ "")).getLast? with
  | some n => if n = "." ∨ n = ".." then "project" else n
  | none => "project"

/-- The test-command resolution of `build_enhanced_prompt` (main.rs lines
327-341): `cfg` is the content of `Evolve.toml` when the file exists and is
readable, and the first line starting with `test_command` is scanned. -/
def resolveTestCommand (cfg : Option String) (project_type : String) : String :=
  match cfg with
  | none => default_test_command project_type
  | some content =>
    match ((splitOnChar '\n' content).find?
        (fun l => startsWithS l "test_command")).bind
        (fun line => (splitOnChar '=' line).get? 1) with
    | some s => trimChar '"' (trimS s)
    | none => default_test_command project_type

/-- The role header of the prompt (main.rs lines 347-353). -/
def promptPrefix (project_type project_name : String) : String :=
  "ROLE & CONTEXT:\nYou are an expert " ++ language_name project_type
    ++ " engineer working on the \x27" ++ project_name
    ++ "\x27 project.\nCurrent files being evolved:\n"

/-- The enumerated-files section of the prompt (main.rs lines 355-362): one
line per file, annotated by the name-based test heuristic. -/
def filesSection (files : List String) : String :=
  joinS (files.map (fun f =>
    "- " ++ f ++ " ("
      ++ (if containsSub f "test" then "test code" else "library code")
      ++ ")\n"))

/-- Everything the prompt appends after the file list (main.rs lines
364-400). -/
def promptSuffix (project_type test_command instruction : String) : String :=
  "Test command: " ++ test_command ++ "\n\n"
    ++ "CODE QUALITY REQUIREMENTS:\n"
    ++ get_code_quality_requirements project_type ++ "\n"
    ++ "TEST QUALITY REQUIREMENTS:\n"
    ++ get_test_quality_requirements project_type ++ "\n"
    ++ tddProtocol test_command
    ++ "TASK:\n" ++ instruction ++ "\n\n"
    ++ constraintsText

/-- main.rs `build_enhanced_prompt`: role header, file enumeration, then the
fixed blocks.  `cfg` models the read of `Evolve.toml` in the target
directory. -/
def build_enhanced_prompt (cfg : Option String) (target_dir instruction : String)
    (files : List String) : String :=
  let project_type := (infer_project_type files).getD "rust"
  let test_command := resolveTestCommand cfg project_type
  promptPrefix project_type (projectName target_dir)
    ++ filesSection files
    ++ promptSuffix project_type test_command instruction

/-- main.rs `verify_fitness`: whitespace-tokenize the test command, return
`Ok(false)` without spawning when no token exists, otherwise spawn the first
token with the rest as arguments and report exit success.  The first
component lists the spawn attempts made. -/
def verify_fitness (run : String → List String → Option Bool)
    (test_cmd : String) : List (String × List String) × Except Unit Bool :=
  match tokens test_cmd with
  | [] => ([], Except.ok false)
  | prog :: args =>
    match run prog args with
    | none => ([(prog, args)], Except.error ())
    | some st => ([(prog, args)], Except.ok st)

/-- The evolution loop of `main` (lines 60-95), from generation `g` with
`rem` generations of budget left: one mutation attempt per generation, an
immediate successful return on a passing verification, and otherwise a
revert to the baseline `sha` followed by the next generation. -/
def loopFrom (gens : Nat → GenEnv) (sha : String) :
    Nat → Nat → List MEvent × Outcome
  | _g, 0 => ([], Outcome.exhausted)
  | g, rem + 1 =>
    let e := gens g
    match e.agent with
    | AgentResult.err =>
      if e.revertOk then
        let r := loopFrom gens sha (g + 1) rem
        (MEvent.mutate g :: MEvent.revert sha :: r.1, r.2)
      else ([MEvent.mutate g, MEvent.revert sha], Outcome.abortedVcs)
    | AgentResult.ok =>
      match e.verify with
      | VerifyResult.pass => ([MEvent.mutate g], Outcome.succeeded g)
      | VerifyResult.fail =>
        if e.revertOk then
          let r := loopFrom gens sha (g + 1) rem
          (MEvent.mutate g :: MEvent.revert sha :: r.1, r.2)
        else ([MEvent.mutate g, MEvent.revert sha], Outcome.abortedVcs)
      | VerifyResult.crash =>
        if e.revertOk then
          let r := loopFrom gens sha (g + 1) rem
          (MEvent.mutate g :: MEvent.revert sha :: r.1, r.2)
        else ([MEvent.mutate g, MEvent.revert sha], Outcome.abortedVcs)

/-- The external world of a whole run. -/
structure MainWorld where
  fs : FS
  cargoTomlExists : Bool
  pyprojectExists : Bool
  run : String → List String → Option Bool
  git : GitOracle
  gens : Nat → GenEnv

/-- `main` after configuration loading (main.rs lines 52-101): bootstrap,
baseline capture (whose log line slices the first seven bytes of the
revision and panics on a shorter one), then the evolution loop. -/
def mainRun (s : EvolutionSettings) (w : MainWorld) : List MEvent × Outcome :=
  let b := bootstrap_project w.run w.cargoTomlExists w.pyprojectExists w.fs s
  match b.2 with
  | Except.error _ => (b.1, Outcome.abortedBootstrap)
  | Except.ok _ =>
    let gr := ensure_git_clean_state w.git
    match gr.2 with
    | Except.error _ => (b.1 ++ gr.1, Outcome.abortedVcs)
    | Except.ok sha =>
      match sliceFirstSeven sha with
      | none => (b.1 ++ gr.1 ++ [MEvent.baseline sha], Outcome.panickedShortSha)
      | some _ =>
        let l := loopFrom w.gens sha 1 s.max_generations
        (b.1 ++ gr.1 ++ MEvent.baseline sha :: l.1, l.2)

/-- Event classifiers, used to count and locate events in a trace. -/
def MEvent.isMutate : MEvent → Bool
  | MEvent.mutate _ => true
  | _ => false

def MEvent.isRevert : MEvent → Bool
  | MEvent.revert _ => true
  | _ => false

def MEvent.isBaseline : MEvent → Bool
  | MEvent.baseline _ => true
  | _ => false

def MEvent.isBootEvent : MEvent → Bool
  | MEvent.bootCmd _ _ => true
  | MEvent.cargoInit _ => true
  | MEvent.scaffold _ => true
  | _ => false

def MEvent.isGitEvent : MEvent → Bool
  | MEvent.gitInit => true
  | MEvent.gitAdd => true
  | MEvent.gitDiff => true
  | MEvent.gitCommit => true
  | MEvent.gitRevParse => true
  | _ => false

/-- Number of mutation attempts recorded in a trace. -/
def countMutates (evs : List MEvent) : Nat :=
  (evs.filter MEvent.isMutate).length

/-- A generation whose verification passes (agent succeeded, tests green). -/
def genPasses (e : GenEnv) : Prop :=
  e.agent = AgentResult.ok ∧ e.verify = VerifyResult.pass

/-- A generation that fails in one of the three recoverable ways: agent
error, failed verification, verifier crash. -/
def genFails (e : GenEnv) : Prop :=
  e.agent = AgentResult.err
    ∨ (e.agent = AgentResult.ok
        ∧ (e.verify = VerifyResult.fail ∨ e.verify = VerifyResult.crash))

/-- Concrete subprocess oracle where every command runs and exits zero. -/
def allPassRun : String → List String → Option Bool := fun _ _ => some true


/-- Number of baseline-capture events recorded in a trace. -/
def countBaselines (evs : List MEvent) : Nat :=
  (evs.filter MEvent.isBaseline).length

/-- Concrete subprocess oracle where every command runs and exits non-zero. -/
def allFailRun : String → List String → Option Bool := fun _ _ => some false

/-- Concrete subprocess oracle where no command can be spawned. -/
def noSpawnRun : String → List String → Option Bool := fun _ _ => none

/-- A generation whose agent succeeds and whose tests pass. -/
def passGen : GenEnv := ⟨AgentResult.ok, VerifyResult.pass, true⟩

/-- A generation whose agent succeeds but whose tests fail. -/
def failGen : GenEnv := ⟨AgentResult.ok, VerifyResult.fail, true⟩

/-- A generation whose agent errors out. -/
def errGen : GenEnv := ⟨AgentResult.err, VerifyResult.crash, true⟩

/-- Git oracle of a healthy repository with staged changes. -/
def healthyGit : GitOracle :=
  ⟨true, some ⟨true, ""⟩, some ⟨true, ""⟩, some ⟨false, ""⟩, some ⟨true, ""⟩,
   some ⟨true, "0123456789abcdef0123456789abcdef01234567\n"⟩⟩

/-- Git oracle where the Genesis commit runs but exits non-zero (for example
no user identity is configured) while everything else works. -/
def c4Oracle : GitOracle :=
  ⟨true, some ⟨true, ""⟩, some ⟨true, ""⟩, some ⟨false, ""⟩,
   some ⟨false, "fatal: empty ident"⟩,
   some ⟨true, "0123456789abcdef0123456789abcdef01234567\n"⟩⟩

/-- Git oracle of a repository where the commit fails and rev-parse, run with
no commit to resolve, echoes the literal string HEAD: git prints the argument
to stdout and exits non-zero, and neither exit status is checked. -/
def c9Oracle : GitOracle :=
  ⟨true, some ⟨true, ""⟩, some ⟨true, ""⟩, some ⟨false, ""⟩,
   some ⟨false, "fatal: no email"⟩, some ⟨false, "HEAD\n"⟩⟩

/-- Git oracle of a fresh directory: no repository yet, everything works. -/
def c9WitGit : GitOracle :=
  ⟨false, some ⟨true, ""⟩, some ⟨true, ""⟩, some ⟨false, ""⟩, some ⟨true, ""⟩,
   some ⟨true, "abcdef0123456789abcdef0123456789abcdef01\n"⟩⟩

/-- The empty target directory. -/
def emptyFS : FS := ⟨[], []⟩

/-- A target directory already holding one file. -/
def keepFS : FS := ⟨[("keep.txt", "old")], []⟩

/-- Concrete settings used to instantiate the loop theorems. -/
def wSettings : EvolutionSettings :=
  ⟨"improve the library", "cargo test", 3, ["src/lib.rs"],
   none, none, none, none, none⟩

/-- Concrete settings exercising the scaffolding of a missing and an
existing file. -/
def wsScaffold : EvolutionSettings :=
  ⟨"improve", "cargo test", 2, ["src/lib.rs", "keep.txt"],
   none, none, none, none, none⟩

/-- Concrete settings with an explicit bootstrap command. -/
def wsBootCmd : EvolutionSettings :=
  ⟨"improve", "cargo test", 2, ["src/lib.rs"],
   none, some "make setup", none, none, none⟩

/-- Concrete settings whose bootstrap command is only whitespace. -/
def wsBootBlank : EvolutionSettings :=
  ⟨"improve", "cargo test", 2, ["src/lib.rs"],
   none, some "   ", none, none, none⟩

/-- A world whose first generation already passes. -/
def wWorld : MainWorld :=
  ⟨emptyFS, true, false, allPassRun, healthyGit, fun _ => passGen⟩

/-- A world where every generation fails its tests. -/
def wWorldFail : MainWorld :=
  ⟨emptyFS, true, false, allPassRun, healthyGit, fun _ => failGen⟩

/-- A world where no subprocess can be spawned at all. -/
def wWorldNoSpawn : MainWorld :=
  ⟨emptyFS, false, false, noSpawnRun, healthyGit, fun _ => passGen⟩

/-- A world where every subprocess runs and exits non-zero. -/
def wWorldFailRun : MainWorld :=
  ⟨emptyFS, false, false, allFailRun, healthyGit, fun _ => passGen⟩

theorem FS.readFile_eq_none_iff (fs : FS) (p : String) :
    fs.readFile p = none ↔ fs.existsFile p = false := by
  simp [FS.readFile, FS.existsFile, List.find?_eq_none, List.any_eq_true]

theorem ensureParent_entries (fs : FS) (f : String) :
    (ensureParent fs f).entries = fs.entries := by
  unfold ensureParent
  rcases parentOf f with _ | d
  · rfl
  · dsimp only
    split
    · rfl
    · rfl

theorem ensureParent_existsFile (fs : FS) (f p : String) :
    (ensureParent fs f).existsFile p = fs.existsFile p := by
  simp [FS.existsFile, ensureParent_entries]

theorem ensureParent_readFile (fs : FS) (f p : String) :
    (ensureParent fs f).readFile p = fs.readFile p := by
  simp [FS.readFile, ensureParent_entries]

theorem ensureParent_hasDir_mono (fs : FS) (f d : String)
    (h : fs.hasDir d = true) : (ensureParent fs f).hasDir d = true := by
  unfold ensureParent
  rcases parentOf f with _ | d'
  · exact h
  · dsimp only
    split
    · exact h
    · simp only [FS.hasDir, FS.mkdirAll, List.any_cons] at h ⊢
      simp [h]

theorem ensureParent_parent (fs : FS) (f d : String)
    (h : parentOf f = some d) : (ensureParent fs f).hasDir d = true := by
  unfold ensureParent
  rw [h]
  dsimp only
  split
  · assumption
  · simp [FS.hasDir, FS.mkdirAll]

theorem writeFile_hasDir (fs : FS) (p c d : String) :
    (fs.writeFile p c).hasDir d = fs.hasDir d := rfl

theorem ensureParent_noop (fs : FS) (f : String)
    (h : ∀ d, parentOf f = some d → fs.hasDir d = true) :
    ensureParent fs f = fs := by
  unfold ensureParent
  rcases hp : parentOf f with _ | d
  · rfl
  · dsimp only
    rw [h d hp]
    simp

theorem scaffoldFile_exists_self (s : EvolutionSettings) (fs : FS) (f : String) :
    (scaffoldFile s fs f).2.existsFile f = true := by
  unfold scaffoldFile
  dsimp only
  split
  · assumption
  · simp [FS.existsFile, FS.writeFile]

theorem scaffoldFile_exists_mono (s : EvolutionSettings) (fs : FS) (f p : String)
    (h : fs.existsFile p = true) :
    (scaffoldFile s fs f).2.existsFile p = true := by
  unfold scaffoldFile
  dsimp only
  split
  · rw [ensureParent_existsFile]
    exact h
  · simp only [FS.existsFile] at h
    simp [FS.existsFile, FS.writeFile, ensureParent_entries, h]

theorem scaffoldFile_hasDir_mono (s : EvolutionSettings) (fs : FS) (f d : String)
    (h : fs.hasDir d = true) :
    (scaffoldFile s fs f).2.hasDir d = true := by
  unfold scaffoldFile
  dsimp only
  split
  · exact ensureParent_hasDir_mono fs f d h
  · rw [writeFile_hasDir]
    exact ensureParent_hasDir_mono fs f d h

theorem scaffoldFile_parent (s : EvolutionSettings) (fs : FS) (f d : String)
    (h : parentOf f = some d) :
    (scaffoldFile s fs f).2.hasDir d = true := by
  unfold scaffoldFile
  dsimp only
  split
  · exact ensureParent_parent fs f d h
  · rw [writeFile_hasDir]
    exact ensureParent_parent fs f d h

theorem scaffoldFile_read_preserve (s : EvolutionSettings) (fs : FS)
    (f p c : String) (h : fs.readFile p = some c) :
    (scaffoldFile s fs f).2.readFile p = some c := by
  unfold scaffoldFile
  dsimp only
  split
  · rw [ensureParent_readFile]
    exact h
  · next hex =>
    rw [ensureParent_existsFile, Bool.not_eq_true] at hex
    have hnone : fs.readFile f = none := (FS.readFile_eq_none_iff fs f).mpr hex
    have hne : f ≠ p := by
      intro he
      rw [he] at hnone
      rw [hnone] at h
      exact Option.noConfusion h
    simp only [FS.readFile, FS.writeFile, ensureParent_entries]
    rw [List.find?_cons_of_neg]
    · exact h
    · simp [hne]

theorem scaffoldFile_read_ne (s : EvolutionSettings) (fs : FS) (f p : String)
    (hne : p ≠ f) :
    (scaffoldFile s fs f).2.readFile p = fs.readFile p := by
  unfold scaffoldFile
  dsimp only
  split
  · rw [ensureParent_readFile]
  · simp only [FS.readFile, FS.writeFile, ensureParent_entries]
    rw [List.find?_cons_of_neg]
    simp only [decide_eq_true_eq]
    exact fun h => hne h.symm

theorem scaffoldFile_read_new (s : EvolutionSettings) (fs : FS) (f : String)
    (h : fs.readFile f = none) :
    (scaffoldFile s fs f).2.readFile f = some (scaffoldChoice s f) := by
  have hex : fs.existsFile f = false := (FS.readFile_eq_none_iff fs f).mp h
  unfold scaffoldFile
  dsimp only
  split
  · next htrue =>
    rw [ensureParent_existsFile, hex] at htrue
    exact Bool.noConfusion htrue
  · simp only [FS.readFile, FS.writeFile, ensureParent_entries]
    rw [List.find?_cons_of_pos]
    · rfl
    · simp

theorem scaffoldFile_noop (s : EvolutionSettings) (fs : FS) (f : String)
    (h : fs.existsFile f = true)
    (hd : ∀ d, parentOf f = some d → fs.hasDir d = true) :
    scaffoldFile s fs f = ([], fs) := by
  unfold scaffoldFile
  rw [ensureParent_noop fs f hd]
  dsimp only
  rw [h]
  rfl

theorem scaffoldFile_events (s : EvolutionSettings) (fs : FS) (f : String) :
    (scaffoldFile s fs f).1 = [] ∨ (scaffoldFile s fs f).1 = [MEvent.scaffold f] := by
  unfold scaffoldFile
  dsimp only
  split
  · left
    rfl
  · right
    rfl

theorem scaffoldAll_read_preserve (s : EvolutionSettings) (fs : FS)
    (l : List String) (p c : String) (h : fs.readFile p = some c) :
    (scaffoldAll s fs l).2.readFile p = some c := by
  induction l generalizing fs with
  | nil => exact h
  | cons f rest ih =>
    simp only [scaffoldAll]
    exact ih (scaffoldFile s fs f).2 (scaffoldFile_read_preserve s fs f p c h)

theorem scaffoldAll_exists_mono (s : EvolutionSettings) (fs : FS)
    (l : List String) (p : String) (h : fs.existsFile p = true) :
    (scaffoldAll s fs l).2.existsFile p = true := by
  induction l generalizing fs with
  | nil => exact h
  | cons f rest ih =>
    simp only [scaffoldAll]
    exact ih (scaffoldFile s fs f).2 (scaffoldFile_exists_mono s fs f p h)

theorem scaffoldAll_hasDir_mono (s : EvolutionSettings) (fs : FS)
    (l : List String) (d : String) (h : fs.hasDir d = true) :
    (scaffoldAll s fs l).2.hasDir d = true := by
  induction l generalizing fs with
  | nil => exact h
  | cons f rest ih =>
    simp only [scaffoldAll]
    exact ih (scaffoldFile s fs f).2 (scaffoldFile_hasDir_mono s fs f d h)

theorem scaffoldAll_exists_all (s : EvolutionSettings) (fs : FS)
    (l : List String) (f : String) (hf : f ∈ l) :
    (scaffoldAll s fs l).2.existsFile f = true
      ∧ ∀ d, parentOf f = some d → (scaffoldAll s fs l).2.hasDir d = true := by
  induction l generalizing fs with
  | nil => cases hf
  | cons g rest ih =>
    rcases List.mem_cons.mp hf with hfg | hfr
    · subst hfg
      simp only [scaffoldAll]
      refine ⟨scaffoldAll_exists_mono s _ rest f (scaffoldFile_exists_self s fs f), ?_⟩
      intro d hd
      exact scaffoldAll_hasDir_mono s _ rest d (scaffoldFile_parent s fs f d hd)
    · simp only [scaffoldAll]
      exact ih (scaffoldFile s fs g).2 hfr

theorem scaffoldAll_noop (s : EvolutionSettings) (fs : FS) (l : List String)
    (h : ∀ f ∈ l, fs.existsFile f = true
      ∧ ∀ d, parentOf f = some d → fs.hasDir d = true) :
    scaffoldAll s fs l = ([], fs) := by
  induction l with
  | nil => rfl
  | cons f rest ih =>
    have hf := h f (List.mem_cons_self f rest)
    have hsf : scaffoldFile s fs f = ([], fs) := scaffoldFile_noop s fs f hf.1 hf.2
    simp only [scaffoldAll, hsf]
    rw [ih (fun g hg => h g (List.mem_cons_of_mem f hg))]
    rfl

theorem scaffoldAll_read_new (s : EvolutionSettings) (fs : FS) (l : List String)
    (f : String) (hf : f ∈ l) (h : fs.readFile f = none) :
    (scaffoldAll s fs l).2.readFile f = some (scaffoldChoice s f) := by
  induction l generalizing fs with
  | nil => cases hf
  | cons g rest ih =>
    simp only [scaffoldAll]
    rcases List.mem_cons.mp hf with hfg | hfr
    · subst hfg
      exact scaffoldAll_read_preserve s _ rest f _ (scaffoldFile_read_new s fs f h)
    · by_cases hgf : f = g
      · subst hgf
        exact scaffoldAll_read_preserve s _ rest f _ (scaffoldFile_read_new s fs f h)
      · have hread : (scaffoldFile s fs g).2.readFile f = none := by
          rw [scaffoldFile_read_ne s fs g f hgf]
          exact h
        exact ih (scaffoldFile s fs g).2 hfr hread

theorem scaffoldAll_events (s : EvolutionSettings) (fs : FS) (l : List String)
    (e : MEvent) (he : e ∈ (scaffoldAll s fs l).1) :
    ∃ g, e = MEvent.scaffold g := by
  induction l generalizing fs with
  | nil => cases he
  | cons f rest ih =>
    simp only [scaffoldAll] at he
    rcases List.mem_append.mp he with h1 | h2
    · rcases scaffoldFile_events s fs f with hev | hev
      · rw [hev] at h1
        cases h1
      · rw [hev] at h1
        rcases List.mem_singleton.mp h1 with h
        exact ⟨f, h⟩
    · exact ih (scaffoldFile s fs f).2 h2

theorem bootstrapPhase1_events (run : String → List String → Option Bool)
    (ct pt : Bool) (s : EvolutionSettings) (e : MEvent)
    (he : e ∈ (bootstrapPhase1 run ct pt s).1) :
    (∃ p a, e = MEvent.bootCmd p a) ∨ ∃ it, e = MEvent.cargoInit it := by
  unfold bootstrapPhase1 at he
  repeat' split at he
  all_goals simp only [List.mem_singleton, List.not_mem_nil] at he
  all_goals try cases he
  all_goals first
    | exact Or.inl ⟨_, _, rfl⟩
    | exact Or.inr ⟨_, rfl⟩

theorem bootstrap_project_events (run : String → List String → Option Bool)
    (ct pt : Bool) (fs : FS) (s : EvolutionSettings) (e : MEvent)
    (he : e ∈ (bootstrap_project run ct pt fs s).1) :
    e.isBootEvent = true := by
  have hboot : (∃ p a, e = MEvent.bootCmd p a) ∨ (∃ it, e = MEvent.cargoInit it)
      ∨ ∃ g, e = MEvent.scaffold g := by
    unfold bootstrap_project at he
    rcases h1 : bootstrapPhase1 run ct pt s with ⟨evs, r⟩
    rw [h1] at he
    have hph : evs = (bootstrapPhase1 run ct pt s).1 := by rw [h1]
    cases r with
    | error err =>
      simp only at he
      rcases bootstrapPhase1_events run ct pt s e (hph ▸ he) with h | h
      · exact Or.inl h
      · exact Or.inr (Or.inl h)
    | ok u =>
      simp only at he
      rcases List.mem_append.mp he with h | h
      · rcases bootstrapPhase1_events run ct pt s e (hph ▸ h) with h2 | h2
        · exact Or.inl h2
        · exact Or.inr (Or.inl h2)
      · exact Or.inr (Or.inr (scaffoldAll_events s fs s.files e h))
  rcases hboot with ⟨p, a, rfl⟩ | ⟨it, rfl⟩ | ⟨g, rfl⟩ <;> rfl

theorem bootstrap_project_ok_shape (run : String → List String → Option Bool)
    (ct pt : Bool) (fs : FS) (s : EvolutionSettings) (fs' : FS)
    (h : (bootstrap_project run ct pt fs s).2 = Except.ok fs') :
    fs' = (scaffoldAll s fs s.files).2
      ∧ (bootstrapPhase1 run ct pt s).2 = Except.ok () := by
  unfold bootstrap_project at h
  rcases h1 : bootstrapPhase1 run ct pt s with ⟨evs, r⟩
  rw [h1] at h
  cases r with
  | error err => cases h
  | ok u =>
    simp only at h
    cases h
    refine ⟨rfl, ?_⟩
    cases u
    rfl

theorem bootstrap_project_of_phase1_ok (run : String → List String → Option Bool)
    (ct pt : Bool) (fs : FS) (s : EvolutionSettings)
    (h : (bootstrapPhase1 run ct pt s).2 = Except.ok ()) :
    bootstrap_project run ct pt fs s
      = ((bootstrapPhase1 run ct pt s).1 ++ (scaffoldAll s fs s.files).1,
         Except.ok (scaffoldAll s fs s.files).2) := by
  unfold bootstrap_project
  rcases h1 : bootstrapPhase1 run ct pt s with ⟨evs, r⟩
  rw [h1] at h
  cases r with
  | error err => cases h
  | ok u => rfl

theorem countMutates_nil : countMutates [] = 0 := rfl

theorem countMutates_cons_mutate (g : Nat) (evs : List MEvent) :
    countMutates (MEvent.mutate g :: evs) = countMutates evs + 1 := by
  simp [countMutates, List.filter_cons, MEvent.isMutate]

theorem countMutates_cons_revert (t : String) (evs : List MEvent) :
    countMutates (MEvent.revert t :: evs) = countMutates evs := by
  simp [countMutates, List.filter_cons, MEvent.isMutate]

theorem countMutates_append (a b : List MEvent) :
    countMutates (a ++ b) = countMutates a + countMutates b := by
  simp [countMutates, List.filter_append]

theorem countMutates_eq_zero (evs : List MEvent)
    (h : ∀ e ∈ evs, e.isMutate = false) : countMutates evs = 0 := by
  have : evs.filter MEvent.isMutate = [] := by
    rw [List.filter_eq_nil_iff]
    intro e he
    rw [h e he]
    exact Bool.false_ne_true
  simp [countMutates, this]

theorem loopFrom_count (gens : Nat → GenEnv) (sha : String) (g rem : Nat) :
    countMutates (loopFrom gens sha g rem).1 ≤ rem := by
  induction rem generalizing g with
  | zero => simp [loopFrom, countMutates_nil]
  | succ rem ih =>
    rcases ha : (gens g).agent with _ | _
    · rcases hv : (gens g).verify with _ | _ | _
      · simp [loopFrom, ha, hv, countMutates_cons_mutate, countMutates_nil]
      · rcases hr : (gens g).revertOk with _ | _
        · simp only [loopFrom, ha, hv, hr]
          simp [countMutates_cons_mutate, countMutates_cons_revert, countMutates_nil]
        · simp only [loopFrom, ha, hv, hr]
          simp only [if_true, countMutates_cons_mutate, countMutates_cons_revert]
          exact Nat.succ_le_succ (ih (g + 1))
      · rcases hr : (gens g).revertOk with _ | _
        · simp only [loopFrom, ha, hv, hr]
          simp [countMutates_cons_mutate, countMutates_cons_revert, countMutates_nil]
        · simp only [loopFrom, ha, hv, hr]
          simp only [if_true, countMutates_cons_mutate, countMutates_cons_revert]
          exact Nat.succ_le_succ (ih (g + 1))
    · rcases hr : (gens g).revertOk with _ | _
      · simp only [loopFrom, ha, hr]
        simp [countMutates_cons_mutate, countMutates_cons_revert, countMutates_nil]
      · simp only [loopFrom, ha, hr]
        simp only [if_true, countMutates_cons_mutate, countMutates_cons_revert]
        exact Nat.succ_le_succ (ih (g + 1))

theorem loopFrom_succeeded_ge (gens : Nat → GenEnv) (sha : String)
    (g rem gs : Nat) (h : (loopFrom gens sha g rem).2 = Outcome.succeeded gs) :
    g ≤ gs := by
  induction rem generalizing g with
  | zero => simp [loopFrom] at h
  | succ rem ih =>
    rcases ha : (gens g).agent with _ | _
    · rcases hv : (gens g).verify with _ | _ | _
      · simp only [loopFrom, ha, hv] at h
        cases h
        exact Nat.le_refl _
      · rcases hr : (gens g).revertOk with _ | _
        · simp only [loopFrom, ha, hv, hr] at h
          simp at h
        · simp only [loopFrom, ha, hv, hr, if_true] at h
          exact Nat.le_of_succ_le (ih (g + 1) h)
      · rcases hr : (gens g).revertOk with _ | _
        · simp only [loopFrom, ha, hv, hr] at h
          simp at h
        · simp only [loopFrom, ha, hv, hr, if_true] at h
          exact Nat.le_of_succ_le (ih (g + 1) h)
    · rcases hr : (gens g).revertOk with _ | _
      · simp only [loopFrom, ha, hr] at h
        simp at h
      · simp only [loopFrom, ha, hr, if_true] at h
        exact Nat.le_of_succ_le (ih (g + 1) h)

theorem loopFrom_succeeded_mutates (gens : Nat → GenEnv) (sha : String)
    (g rem gs : Nat) (h : (loopFrom gens sha g rem).2 = Outcome.succeeded gs) :
    ∀ g', MEvent.mutate g' ∈ (loopFrom gens sha g rem).1 → g' ≤ gs := by
  induction rem generalizing g with
  | zero =>
    intro g' hg'
    simp [loopFrom] at hg'
  | succ rem ih =>
    intro g' hg'
    rcases ha : (gens g).agent with _ | _
    · rcases hv : (gens g).verify with _ | _ | _
      · simp only [loopFrom, ha, hv] at h hg'
        cases h
        simp at hg'
        cases hg'
        exact Nat.le_refl gs
      · rcases hr : (gens g).revertOk with _ | _
        · simp only [loopFrom, ha, hv, hr] at h
          simp at h
        · simp only [loopFrom, ha, hv, hr, if_true] at h hg'
          rcases List.mem_cons.mp hg' with h1 | h1
          · cases h1
            exact Nat.le_of_succ_le (loopFrom_succeeded_ge gens sha (g + 1) rem gs h)
          · rcases List.mem_cons.mp h1 with h2 | h2
            · cases h2
            · exact ih (g + 1) h g' h2
      · rcases hr : (gens g).revertOk with _ | _
        · simp only [loopFrom, ha, hv, hr] at h
          simp at h
        · simp only [loopFrom, ha, hv, hr, if_true] at h hg'
          rcases List.mem_cons.mp hg' with h1 | h1
          · cases h1
            exact Nat.le_of_succ_le (loopFrom_succeeded_ge gens sha (g + 1) rem gs h)
          · rcases List.mem_cons.mp h1 with h2 | h2
            · cases h2
            · exact ih (g + 1) h g' h2
    · rcases hr : (gens g).revertOk with _ | _
      · simp only [loopFrom, ha, hr] at h
        simp at h
      · simp only [loopFrom, ha, hr, if_true] at h hg'
        rcases List.mem_cons.mp hg' with h1 | h1
        · cases h1
          exact Nat.le_of_succ_le (loopFrom_succeeded_ge gens sha (g + 1) rem gs h)
        · rcases List.mem_cons.mp h1 with h2 | h2
          · cases h2
          · exact ih (g + 1) h g' h2

theorem loopFrom_revert_target (gens : Nat → GenEnv) (sha : String)
    (g rem : Nat) (t : String)
    (h : MEvent.revert t ∈ (loopFrom gens sha g rem).1) : t = sha := by
  induction rem generalizing g with
  | zero => simp [loopFrom] at h
  | succ rem ih =>
    rcases ha : (gens g).agent with _ | _
    · rcases hv : (gens g).verify with _ | _ | _
      · simp only [loopFrom, ha, hv] at h
        simp at h
      · rcases hr : (gens g).revertOk with _ | _
        · simp only [loopFrom, ha, hv, hr] at h
          simp at h
          exact h
        · simp only [loopFrom, ha, hv, hr, if_true] at h
          rcases List.mem_cons.mp h with h1 | h1
          · cases h1
          · rcases List.mem_cons.mp h1 with h2 | h2
            · cases h2
              rfl
            · exact ih (g + 1) h2
      · rcases hr : (gens g).revertOk with _ | _
        · simp only [loopFrom, ha, hv, hr] at h
          simp at h
          exact h
        · simp only [loopFrom, ha, hv, hr, if_true] at h
          rcases List.mem_cons.mp h with h1 | h1
          · cases h1
          · rcases List.mem_cons.mp h1 with h2 | h2
            · cases h2
              rfl
            · exact ih (g + 1) h2
    · rcases hr : (gens g).revertOk with _ | _
      · simp only [loopFrom, ha, hr] at h
        simp at h
        exact h
      · simp only [loopFrom, ha, hr, if_true] at h
        rcases List.mem_cons.mp h with h1 | h1
        · cases h1
        · rcases List.mem_cons.mp h1 with h2 | h2
          · cases h2
            rfl
          · exact ih (g + 1) h2

theorem loopFrom_events_kind (gens : Nat → GenEnv) (sha : String)
    (g rem : Nat) (e : MEvent) (h : e ∈ (loopFrom gens sha g rem).1) :
    e.isMutate = true ∨ e.isRevert = true := by
  induction rem generalizing g with
  | zero => simp [loopFrom] at h
  | succ rem ih =>
    rcases ha : (gens g).agent with _ | _
    · rcases hv : (gens g).verify with _ | _ | _
      · simp only [loopFrom, ha, hv] at h
        simp at h
        subst h
        left
        rfl
      · rcases hr : (gens g).revertOk with _ | _
        · simp only [loopFrom, ha, hv, hr] at h
          rcases List.mem_cons.mp h with h1 | h1
          · subst h1
            left
            rfl
          · rcases List.mem_cons.mp h1 with h2 | h2
            · subst h2
              right
              rfl
            · cases h2
        · simp only [loopFrom, ha, hv, hr, if_true] at h
          rcases List.mem_cons.mp h with h1 | h1
          · subst h1
            left
            rfl
          · rcases List.mem_cons.mp h1 with h2 | h2
            · subst h2
              right
              rfl
            · exact ih (g + 1) h2
      · rcases hr : (gens g).revertOk with _ | _
        · simp only [loopFrom, ha, hv, hr] at h
          rcases List.mem_cons.mp h with h1 | h1
          · subst h1
            left
            rfl
          · rcases List.mem_cons.mp h1 with h2 | h2
            · subst h2
              right
              rfl
            · cases h2
        · simp only [loopFrom, ha, hv, hr, if_true] at h
          rcases List.mem_cons.mp h with h1 | h1
          · subst h1
            left
            rfl
          · rcases List.mem_cons.mp h1 with h2 | h2
            · subst h2
              right
              rfl
            · exact ih (g + 1) h2
    · rcases hr : (gens g).revertOk with _ | _
      · simp only [loopFrom, ha, hr] at h
        rcases List.mem_cons.mp h with h1 | h1
        · subst h1
          left
          rfl
        · rcases List.mem_cons.mp h1 with h2 | h2
          · subst h2
            right
            rfl
          · cases h2
      · simp only [loopFrom, ha, hr, if_true] at h
        rcases List.mem_cons.mp h with h1 | h1
        · subst h1
          left
          rfl
        · rcases List.mem_cons.mp h1 with h2 | h2
          · subst h2
            right
            rfl
          · exact ih (g + 1) h2

theorem loopFrom_pass (gens : Nat → GenEnv) (sha : String) (g rem : Nat)
    (h : genPasses (gens g)) :
    loopFrom gens sha g (rem + 1) = ([MEvent.mutate g], Outcome.succeeded g) := by
  obtain ⟨ha, hv⟩ := h
  simp [loopFrom, ha, hv]

theorem loopFrom_fail_step (gens : Nat → GenEnv) (sha : String) (g rem : Nat)
    (hf : genFails (gens g)) (hr : (gens g).revertOk = true) :
    loopFrom gens sha g (rem + 1)
      = (MEvent.mutate g :: MEvent.revert sha
            :: (loopFrom gens sha (g + 1) rem).1,
         (loopFrom gens sha (g + 1) rem).2) := by
  rcases hf with ha | ⟨ha, hv⟩
  · simp [loopFrom, ha, hr]
  · rcases hv with hv | hv
    · simp [loopFrom, ha, hv, hr]
    · simp [loopFrom, ha, hv, hr]

theorem all_mem_git (l : List MEvent) (hl : l.all MEvent.isGitEvent = true)
    (e : MEvent) (he : e ∈ l) : e.isGitEvent = true := by
  rw [List.all_eq_true] at hl
  exact hl e he

theorem egcs_events_kind (w : GitOracle) (e : MEvent)
    (he : e ∈ (ensure_git_clean_state w).1) : e.isGitEvent = true := by
  unfold ensure_git_clean_state at he
  repeat' split at he
  all_goals dsimp only at he
  all_goals exact all_mem_git _ (by decide) e he

theorem isMutate_false_of_boot (e : MEvent) (h : e.isBootEvent = true) :
    e.isMutate = false := by
  cases e <;> simp [MEvent.isBootEvent, MEvent.isMutate] at h ⊢

theorem isRevert_false_of_boot (e : MEvent) (h : e.isBootEvent = true) :
    e.isRevert = false := by
  cases e <;> simp [MEvent.isBootEvent, MEvent.isRevert] at h ⊢

theorem isBaseline_false_of_boot (e : MEvent) (h : e.isBootEvent = true) :
    e.isBaseline = false := by
  cases e <;> simp [MEvent.isBootEvent, MEvent.isBaseline] at h ⊢

theorem isMutate_false_of_git (e : MEvent) (h : e.isGitEvent = true) :
    e.isMutate = false := by
  cases e <;> simp [MEvent.isGitEvent, MEvent.isMutate] at h ⊢

theorem isRevert_false_of_git (e : MEvent) (h : e.isGitEvent = true) :
    e.isRevert = false := by
  cases e <;> simp [MEvent.isGitEvent, MEvent.isRevert] at h ⊢

theorem isBaseline_false_of_git (e : MEvent) (h : e.isGitEvent = true) :
    e.isBaseline = false := by
  cases e <;> simp [MEvent.isGitEvent, MEvent.isBaseline] at h ⊢

theorem countMutates_cons_baseline (x : String) (evs : List MEvent) :
    countMutates (MEvent.baseline x :: evs) = countMutates evs := by
  simp [countMutates, List.filter_cons, MEvent.isMutate]

theorem boot_count_zero (run : String → List String → Option Bool)
    (ct pt : Bool) (fs : FS) (s : EvolutionSettings) :
    countMutates (bootstrap_project run ct pt fs s).1 = 0 :=
  countMutates_eq_zero _ (fun e he =>
    isMutate_false_of_boot e (bootstrap_project_events run ct pt fs s e he))

theorem git_count_zero (w : GitOracle) :
    countMutates (ensure_git_clean_state w).1 = 0 :=
  countMutates_eq_zero _ (fun e he =>
    isMutate_false_of_git e (egcs_events_kind w e he))

theorem mainRun_count (s : EvolutionSettings) (w : MainWorld) :
    countMutates (mainRun s w).1 ≤ s.max_generations := by
  unfold mainRun
  dsimp only
  split
  · simp [boot_count_zero]
  · split
    · simp [countMutates_append, boot_count_zero, git_count_zero]
    · split
      · simp [countMutates_append, boot_count_zero, git_count_zero,
          countMutates_cons_baseline, countMutates_nil]
      · simp only [countMutates_append, boot_count_zero, git_count_zero,
          countMutates_cons_baseline, Nat.zero_add]
        exact loopFrom_count w.gens _ 1 s.max_generations

theorem mainRun_shape (s : EvolutionSettings) (w : MainWorld) :
    (∃ sha, (ensure_git_clean_state w.git).2 = Except.ok sha
      ∧ mainRun s w
        = ((bootstrap_project w.run w.cargoTomlExists w.pyprojectExists w.fs s).1
            ++ (ensure_git_clean_state w.git).1
            ++ MEvent.baseline sha :: (loopFrom w.gens sha 1 s.max_generations).1,
           (loopFrom w.gens sha 1 s.max_generations).2))
  ∨ (mainRun s w
      = ((bootstrap_project w.run w.cargoTomlExists w.pyprojectExists w.fs s).1,
         Outcome.abortedBootstrap))
  ∨ (mainRun s w
      = ((bootstrap_project w.run w.cargoTomlExists w.pyprojectExists w.fs s).1
          ++ (ensure_git_clean_state w.git).1, Outcome.abortedVcs))
  ∨ (∃ sha, mainRun s w
      = ((bootstrap_project w.run w.cargoTomlExists w.pyprojectExists w.fs s).1
          ++ (ensure_git_clean_state w.git).1 ++ [MEvent.baseline sha],
         Outcome.panickedShortSha)) := by
  unfold mainRun
  dsimp only
  split
  · exact Or.inr (Or.inl rfl)
  · split
    · exact Or.inr (Or.inr (Or.inl rfl))
    · rename_i sha hsha
      split
      · exact Or.inr (Or.inr (Or.inr ⟨sha, rfl⟩))
      · exact Or.inl ⟨sha, hsha, rfl⟩

theorem not_mutate_mem_boot (run : String → List String → Option Bool)
    (ct pt : Bool) (fs : FS) (s : EvolutionSettings) (g : Nat) :
    MEvent.mutate g ∉ (bootstrap_project run ct pt fs s).1 := by
  intro h
  have := bootstrap_project_events run ct pt fs s _ h
  simp [MEvent.isBootEvent] at this

theorem not_revert_mem_boot (run : String → List String → Option Bool)
    (ct pt : Bool) (fs : FS) (s : EvolutionSettings) (t : String) :
    MEvent.revert t ∉ (bootstrap_project run ct pt fs s).1 := by
  intro h
  have := bootstrap_project_events run ct pt fs s _ h
  simp [MEvent.isBootEvent] at this

theorem not_baseline_mem_boot (run : String → List String → Option Bool)
    (ct pt : Bool) (fs : FS) (s : EvolutionSettings) (x : String) :
    MEvent.baseline x ∉ (bootstrap_project run ct pt fs s).1 := by
  intro h
  have := bootstrap_project_events run ct pt fs s _ h
  simp [MEvent.isBootEvent] at this

theorem not_mutate_mem_git (w : GitOracle) (g : Nat) :
    MEvent.mutate g ∉ (ensure_git_clean_state w).1 := by
  intro h
  have := egcs_events_kind w _ h
  simp [MEvent.isGitEvent] at this

theorem not_revert_mem_git (w : GitOracle) (t : String) :
    MEvent.revert t ∉ (ensure_git_clean_state w).1 := by
  intro h
  have := egcs_events_kind w _ h
  simp [MEvent.isGitEvent] at this

theorem not_baseline_mem_git (w : GitOracle) (x : String) :
    MEvent.baseline x ∉ (ensure_git_clean_state w).1 := by
  intro h
  have := egcs_events_kind w _ h
  simp [MEvent.isGitEvent] at this

theorem not_baseline_mem_loop (gens : Nat → GenEnv) (sha : String)
    (g rem : Nat) (x : String) :
    MEvent.baseline x ∉ (loopFrom gens sha g rem).1 := by
  intro h
  rcases loopFrom_events_kind gens sha g rem _ h with h2 | h2
  · simp [MEvent.isMutate] at h2
  · simp [MEvent.isRevert] at h2

/-- Claim C1: with a budget of `N ≥ 1` generations, the run performs at most
`N` mutation attempts; whenever the loop reaches a generation whose
verification passes, it terminates at once with success at that generation
and produces no further events; and in a successful run no mutation attempt
of a later generation ever appears. -/
theorem claim_C1 (s : EvolutionSettings) (w : MainWorld)
    (hN : 1 ≤ s.max_generations) :
    countMutates (mainRun s w).1 ≤ s.max_generations
  ∧ (∀ sha g rem, genPasses (w.gens g) →
      loopFrom w.gens sha g (rem + 1) = ([MEvent.mutate g], Outcome.succeeded g))
  ∧ (∀ g, (mainRun s w).2 = Outcome.succeeded g →
      ∀ g', MEvent.mutate g' ∈ (mainRun s w).1 → g' ≤ g) := by
  refine ⟨mainRun_count s w, fun sha g rem h => loopFrom_pass w.gens sha g rem h, ?_⟩
  intro g hg g' hm
  rcases mainRun_shape s w with ⟨sha, hok, heq⟩ | heq | heq | ⟨sha, heq⟩
  · rw [heq] at hg hm
    simp only at hg hm
    rcases List.mem_append.mp hm with h1 | h1
    · rcases List.mem_append.mp h1 with h2 | h2
      · exact absurd h2 (not_mutate_mem_boot _ _ _ _ _ _)
      · exact absurd h2 (not_mutate_mem_git _ _)
    · rcases List.mem_cons.mp h1 with h2 | h2
      · cases h2
      · exact loopFrom_succeeded_mutates w.gens sha 1 s.max_generations g hg g' h2
  · rw [heq] at hg
    cases hg
  · rw [heq] at hg
    cases hg
  · rw [heq] at hg
    cases hg

/-- Concrete instance of C1: three generations of budget, the first
generation passes. -/
theorem claim_C1_witness :
    1 ≤ wSettings.max_generations
  ∧ (countMutates (mainRun wSettings wWorld).1 ≤ wSettings.max_generations
    ∧ (∀ sha g rem, genPasses (wWorld.gens g) →
        loopFrom wWorld.gens sha g (rem + 1)
          = ([MEvent.mutate g], Outcome.succeeded g))
    ∧ (∀ g, (mainRun wSettings wWorld).2 = Outcome.succeeded g →
        ∀ g', MEvent.mutate g' ∈ (mainRun wSettings wWorld).1 → g' ≤ g)) :=
  ⟨by decide, claim_C1 wSettings wWorld (by decide)⟩

theorem countBaselines_append (a b : List MEvent) :
    countBaselines (a ++ b) = countBaselines a + countBaselines b := by
  simp [countBaselines, List.filter_append]

theorem countBaselines_eq_zero (evs : List MEvent)
    (h : ∀ e ∈ evs, e.isBaseline = false) : countBaselines evs = 0 := by
  have : evs.filter MEvent.isBaseline = [] := by
    rw [List.filter_eq_nil_iff]
    intro e he
    rw [h e he]
    exact Bool.false_ne_true
  simp [countBaselines, this]

theorem countBaselines_cons_baseline (x : String) (evs : List MEvent) :
    countBaselines (MEvent.baseline x :: evs) = countBaselines evs + 1 := by
  simp [countBaselines, List.filter_cons, MEvent.isBaseline]

theorem boot_baselines_zero (run : String → List String → Option Bool)
    (ct pt : Bool) (fs : FS) (s : EvolutionSettings) :
    countBaselines (bootstrap_project run ct pt fs s).1 = 0 :=
  countBaselines_eq_zero _ (fun e he =>
    isBaseline_false_of_boot e (bootstrap_project_events run ct pt fs s e he))

theorem git_baselines_zero (w : GitOracle) :
    countBaselines (ensure_git_clean_state w).1 = 0 :=
  countBaselines_eq_zero _ (fun e he =>
    isBaseline_false_of_git e (egcs_events_kind w e he))

theorem loop_baselines_zero (gens : Nat → GenEnv) (sha : String) (g rem : Nat) :
    countBaselines (loopFrom gens sha g rem).1 = 0 :=
  countBaselines_eq_zero _ (fun e he => by
    rcases loopFrom_events_kind gens sha g rem e he with h | h <;>
      cases e <;> simp [MEvent.isMutate, MEvent.isRevert] at h <;> rfl)

/-- Claim C2: the baseline revision is captured at most once per run, it is
captured before any mutation attempt, and every revert recorded in the run
targets exactly the captured baseline revision, never anything else. -/
theorem claim_C2 (s : EvolutionSettings) (w : MainWorld) :
    countBaselines (mainRun s w).1 ≤ 1
  ∧ (∀ sha, MEvent.baseline sha ∈ (mainRun s w).1 →
      ∀ t, MEvent.revert t ∈ (mainRun s w).1 → t = sha)
  ∧ (∀ g, MEvent.mutate g ∈ (mainRun s w).1 →
      ∃ sha pre post, (mainRun s w).1 = pre ++ MEvent.baseline sha :: post
        ∧ ∀ e ∈ pre, e.isMutate = false ∧ e.isRevert = false) := by
  rcases mainRun_shape s w with ⟨sha, hok, heq⟩ | heq | heq | ⟨sha, heq⟩
  · rw [heq]
    simp only
    refine ⟨?_, ?_, ?_⟩
    · rw [List.append_assoc, countBaselines_append, countBaselines_append,
        boot_baselines_zero, git_baselines_zero, countBaselines_cons_baseline,
        loop_baselines_zero]
    · intro sha' hb t ht
      have hsha' : sha' = sha := by
        rcases List.mem_append.mp hb with h1 | h1
        · rcases List.mem_append.mp h1 with h2 | h2
          · exact absurd h2 (not_baseline_mem_boot _ _ _ _ _ _)
          · exact absurd h2 (not_baseline_mem_git _ _)
        · rcases List.mem_cons.mp h1 with h2 | h2
          · cases h2
            rfl
          · exact absurd h2 (not_baseline_mem_loop _ _ _ _ _)
      subst hsha'
      rcases List.mem_append.mp ht with h1 | h1
      · rcases List.mem_append.mp h1 with h2 | h2
        · exact absurd h2 (not_revert_mem_boot _ _ _ _ _ _)
        · exact absurd h2 (not_revert_mem_git _ _)
      · rcases List.mem_cons.mp h1 with h2 | h2
        · cases h2
        · exact loopFrom_revert_target w.gens sha' 1 s.max_generations t h2
    · intro g hm
      refine ⟨sha,
        (bootstrap_project w.run w.cargoTomlExists w.pyprojectExists w.fs s).1
          ++ (ensure_git_clean_state w.git).1,
        (loopFrom w.gens sha 1 s.max_generations).1, ?_, ?_⟩
      · rw [List.append_assoc]
      · intro e he
        rcases List.mem_append.mp he with h1 | h1
        · have hk := bootstrap_project_events _ _ _ _ _ _ h1
          exact ⟨isMutate_false_of_boot e hk, isRevert_false_of_boot e hk⟩
        · have hk := egcs_events_kind _ _ h1
          exact ⟨isMutate_false_of_git e hk, isRevert_false_of_git e hk⟩
  · rw [heq]
    simp only
    refine ⟨by simp [boot_baselines_zero], ?_, ?_⟩
    · intro sha hb t ht
      exact absurd hb (not_baseline_mem_boot _ _ _ _ _ _)
    · intro g hm
      exact absurd hm (not_mutate_mem_boot _ _ _ _ _ _)
  · rw [heq]
    simp only
    refine ⟨?_, ?_, ?_⟩
    · rw [countBaselines_append, boot_baselines_zero, git_baselines_zero]
      simp
    · intro sha hb t ht
      rcases List.mem_append.mp hb with h1 | h1
      · exact absurd h1 (not_baseline_mem_boot _ _ _ _ _ _)
      · exact absurd h1 (not_baseline_mem_git _ _)
    · intro g hm
      rcases List.mem_append.mp hm with h1 | h1
      · exact absurd h1 (not_mutate_mem_boot _ _ _ _ _ _)
      · exact absurd h1 (not_mutate_mem_git _ _)
  · rw [heq]
    simp only
    refine ⟨?_, ?_, ?_⟩
    · rw [List.append_assoc, countBaselines_append, countBaselines_append,
        boot_baselines_zero, git_baselines_zero, countBaselines_cons_baseline]
      simp [countBaselines]
    · intro sha' hb t ht
      rcases List.mem_append.mp ht with h1 | h1
      · rcases List.mem_append.mp h1 with h2 | h2
        · exact absurd h2 (not_revert_mem_boot _ _ _ _ _ _)
        · exact absurd h2 (not_revert_mem_git _ _)
      · rcases List.mem_cons.mp h1 with h2 | h2
        · cases h2
        · cases h2
    · intro g hm
      rcases List.mem_append.mp hm with h1 | h1
      · rcases List.mem_append.mp h1 with h2 | h2
        · exact absurd h2 (not_mutate_mem_boot _ _ _ _ _ _)
        · exact absurd h2 (not_mutate_mem_git _ _)
      · rcases List.mem_cons.mp h1 with h2 | h2
        · cases h2
        · cases h2

/-- Concrete instance of C2: a run whose three generations all fail, so the
trace holds one baseline capture followed by mutation attempts and reverts. -/
theorem claim_C2_witness :
    countBaselines (mainRun wSettings wWorldFail).1 ≤ 1
  ∧ ∃ sha pre post,
      (mainRun wSettings wWorldFail).1 = pre ++ MEvent.baseline sha :: post
        ∧ ∀ e ∈ pre, e.isMutate = false ∧ e.isRevert = false :=
  ⟨(claim_C2 wSettings wWorldFail).1,
   (claim_C2 wSettings wWorldFail).2.2 1 (by decide)⟩

/-- Claim C3: a generation that fails in any of the three recoverable ways
(agent error, failed verification, verifier crash) records its mutation
attempt, reverts to the baseline snapshot, consumes exactly one unit of the
generation budget, and hands control to the next generation; the run
outcome is whatever the remaining generations produce, so none of the three
failure kinds aborts the run by itself. -/
theorem claim_C3 (gens : Nat → GenEnv) (sha : String) (g rem : Nat)
    (hf : genFails (gens g)) (hr : (gens g).revertOk = true) :
    loopFrom gens sha g (rem + 1)
      = (MEvent.mutate g :: MEvent.revert sha
            :: (loopFrom gens sha (g + 1) rem).1,
         (loopFrom gens sha (g + 1) rem).2) :=
  loopFrom_fail_step gens sha g rem hf hr

/-- Concrete instance of C3: generation 1 suffers an agent error with one
generation of budget left afterwards. -/
theorem claim_C3_witness :
    genFails ((fun _ => errGen) 1)
  ∧ ((fun _ => errGen) 1).revertOk = true
  ∧ loopFrom (fun _ => errGen) "0123456" 1 2
      = (MEvent.mutate 1 :: MEvent.revert "0123456"
            :: (loopFrom (fun _ => errGen) "0123456" 2 1).1,
         (loopFrom (fun _ => errGen) "0123456" 2 1).2) :=
  ⟨Or.inl rfl, rfl,
   claim_C3 (fun _ => errGen) "0123456" 1 1 (Or.inl rfl) rfl⟩

theorem egcs_ok_revParse (w : GitOracle) (evs : List MEvent) (r : String)
    (h : ensure_git_clean_state w = (evs, Except.ok r)) :
    ∃ cr, w.revParse = some cr ∧ r = trimS cr.stdout := by
  unfold ensure_git_clean_state at h
  repeat' split at h
  all_goals dsimp only at h
  all_goals injection h with h1 h2
  all_goals try exact absurd h2 (fun hx => Except.noConfusion hx)
  all_goals injection h2 with h3
  all_goals rename_i cr hcr
  all_goals exact ⟨cr, hcr, h3.symm⟩

/-- Claim C4, amended: `ensure_git_clean_state` returns the trimmed stdout of
`git rev-parse HEAD`; it fails exactly when one of the git commands it
reaches cannot be spawned at all, while exit statuses of init, add, commit
and rev-parse are never inspected (so a git command that runs and fails,
for any reason, does not make it fail); and it runs the Genesis commit
exactly when the staged-diff check reports that the staged state differs
from the recorded state or none exists. -/
theorem claim_C4 (w : GitOracle) :
    (w.gitDirExists = false → w.init = none →
        (ensure_git_clean_state w).2 = Except.error ())
  ∧ ((w.gitDirExists = true ∨ w.init ≠ none) →
      (w.add = none → (ensure_git_clean_state w).2 = Except.error ())
      ∧ (w.add ≠ none →
        (w.diffCached = none →
            (ensure_git_clean_state w).2 = Except.error ())
        ∧ ∀ d, w.diffCached = some d →
          ((MEvent.gitCommit ∈ (ensure_git_clean_state w).1 ↔ d.success = false)
          ∧ (d.success = false → w.commit = none →
              (ensure_git_clean_state w).2 = Except.error ())
          ∧ ((d.success = true ∨ w.commit ≠ none) →
              (w.revParse = none →
                  (ensure_git_clean_state w).2 = Except.error ())
              ∧ ∀ r, w.revParse = some r →
                  (ensure_git_clean_state w).2 = Except.ok (trimS r.stdout))))) := by
  obtain ⟨gde, oi, oa, od, oc, orp⟩ := w
  cases gde <;> rcases oi with _ | ci <;> rcases oa with _ | ca <;>
    rcases od with _ | ⟨ds, dout⟩ <;> (try cases ds) <;>
    rcases oc with _ | cc <;> rcases orp with _ | cr <;>
    simp [ensure_git_clean_state]

/-- Counterexample to C4 as frozen: in `c4Oracle` the Genesis commit runs
and exits non-zero although the staged diff did report changes (so the
failure is not a mere nothing-to-commit), yet the function returns the head
revision without any error. -/
theorem claim_C4_counterexample :
    c4Oracle.commit = some ⟨false, "fatal: empty ident"⟩
  ∧ c4Oracle.diffCached = some ⟨false, ""⟩
  ∧ (ensure_git_clean_state c4Oracle).2
      = Except.ok "0123456789abcdef0123456789abcdef01234567" := by
  decide

/-- Concrete instance of C4 as amended: a healthy repository with staged
changes commits a Genesis checkpoint and returns the trimmed rev-parse
output. -/
theorem claim_C4_witness :
    (ensure_git_clean_state healthyGit).2
        = Except.ok
            (trimS (CmdResult.mk true
              "0123456789abcdef0123456789abcdef01234567\n").stdout)
  ∧ (MEvent.gitCommit ∈ (ensure_git_clean_state healthyGit).1
      ↔ (CmdResult.mk false "").success = false) := by
  have hB := (claim_C4 healthyGit).2 (Or.inl rfl)
  have hEF := hB.2 (by decide)
  have hGHI := hEF.2 ⟨false, ""⟩ (by decide)
  have hJK := hGHI.2.2 (Or.inr (by decide))
  exact ⟨hJK.2 ⟨true, "0123456789abcdef0123456789abcdef01234567\n"⟩ (by decide),
    hGHI.1⟩

/-- Claim C9, amended: `ensure_git_clean_state` guarantees no lower bound on
the length of the returned revision string — it returns the trimmed stdout
of rev-parse whatever that is — and the seven-byte slice taken by `main` and
by `revert_to_snapshot` is panic-free exactly when that string holds at
least seven characters. -/
theorem claim_C9 (w : GitOracle) (evs : List MEvent) (r : String)
    (h : ensure_git_clean_state w = (evs, Except.ok r)) :
    (∃ cr, w.revParse = some cr ∧ r = trimS cr.stdout)
  ∧ ((sliceFirstSeven r).isSome ↔ 7 ≤ r.toList.length)
  ∧ ((revert_to_snapshot r).isSome ↔ 7 ≤ r.toList.length) := by
  have hslice : (sliceFirstSeven r).isSome ↔ 7 ≤ r.toList.length := by
    unfold sliceFirstSeven
    split
    · next hlt =>
      simp only [Option.isSome_none, Bool.false_eq_true, false_iff]
      omega
    · next hge =>
      simp only [Option.isSome_some, true_iff]
      omega
  have hrev : (revert_to_snapshot r).isSome = (sliceFirstSeven r).isSome := by
    unfold revert_to_snapshot
    rcases h9 : sliceFirstSeven r with _ | x
    · rfl
    · rfl
  refine ⟨egcs_ok_revParse w evs r h, hslice, ?_⟩
  rw [hrev]
  exact hslice

/-- Counterexample to C9 as frozen: with the oracle `c9Oracle` (commit runs
and fails, rev-parse echoes HEAD and its status is not checked) the function
returns the four-byte string HEAD, and the seven-byte slice in `main` and in
`revert_to_snapshot` panics on it. -/
theorem claim_C9_counterexample :
    (ensure_git_clean_state c9Oracle).2 = Except.ok "HEAD"
  ∧ sliceFirstSeven "HEAD" = none
  ∧ revert_to_snapshot "HEAD" = none
  ∧ "HEAD".toList.length < 7 := by
  decide

/-- Concrete instance of C9 as amended, on a fresh directory whose git
commands all work. -/
theorem claim_C9_witness :
    ensure_git_clean_state c9WitGit
      = ([MEvent.gitInit, MEvent.gitAdd, MEvent.gitDiff, MEvent.gitCommit,
          MEvent.gitRevParse],
         Except.ok "abcdef0123456789abcdef0123456789abcdef01")
  ∧ ((∃ cr, c9WitGit.revParse = some cr
        ∧ "abcdef0123456789abcdef0123456789abcdef01" = trimS cr.stdout)
    ∧ ((sliceFirstSeven "abcdef0123456789abcdef0123456789abcdef01").isSome
        ↔ 7 ≤ ("abcdef0123456789abcdef0123456789abcdef01").toList.length)
    ∧ ((revert_to_snapshot "abcdef0123456789abcdef0123456789abcdef01").isSome
        ↔ 7 ≤ ("abcdef0123456789abcdef0123456789abcdef01").toList.length)) :=
  ⟨by decide,
   claim_C9 c9WitGit
     [MEvent.gitInit, MEvent.gitAdd, MEvent.gitDiff, MEvent.gitCommit,
      MEvent.gitRevParse]
     "abcdef0123456789abcdef0123456789abcdef01" (by decide)⟩

/-- Claim C5, amended: `verify_fitness` returns false without spawning any
process whenever the command contains no whitespace-separated token — the
empty string in particular, but also whitespace-only commands; when at
least one token exists it spawns the first token with the remaining tokens
as arguments and returns true exactly when the process exits with status
zero, and reports an error when the process cannot be spawned. -/
theorem claim_C5 (run : String → List String → Option Bool) (cmd : String) :
    (cmd = "" → verify_fitness run cmd = ([], Except.ok false))
  ∧ (tokens cmd = [] → verify_fitness run cmd = ([], Except.ok false))
  ∧ (∀ p args, tokens cmd = p :: args →
      (∀ st, run p args = some st →
        verify_fitness run cmd = ([(p, args)], Except.ok st))
      ∧ (run p args = none →
        verify_fitness run cmd = ([(p, args)], Except.error ()))) := by
  refine ⟨?_, ?_, ?_⟩
  · intro h
    subst h
    rfl
  · intro h
    unfold verify_fitness
    rw [h]
  · intro p args h
    constructor
    · intro st hst
      unfold verify_fitness
      rw [h]
      dsimp only
      rw [hst]
    · intro hnone
      unfold verify_fitness
      rw [h]
      dsimp only
      rw [hnone]

/-- Counterexample to C5 as frozen: the whitespace-only command is not the
empty string, yet even under an oracle where every process exits with
status zero the verifier returns false and spawns nothing, so the claimed
behaviour for every non-empty command does not hold. -/
theorem claim_C5_counterexample :
    (" " ≠ "") ∧ verify_fitness allPassRun " " = ([], Except.ok false) := by
  decide

/-- Concrete instance of C5 as amended: the empty command and a two-token
command under the all-passing oracle. -/
theorem claim_C5_witness :
    verify_fitness allPassRun "" = ([], Except.ok false)
  ∧ verify_fitness allPassRun "cargo test"
      = ([("cargo", ["test"])], Except.ok true) :=
  ⟨(claim_C5 allPassRun "").1 rfl,
   ((claim_C5 allPassRun "cargo test").2.2 "cargo" ["test"] (by decide)).1
     true rfl⟩

/-- Claim C6, amended: prompt construction is a pure text transformation with
no process or network effect, but its output depends on the target
directory name and on the Evolve.toml contents besides the claimed inputs:
holding those fixed, the built text depends on the target directory only
through its name, and a file-list change that preserves the inferred
project type changes only the enumerated-files section. -/
theorem claim_C6 (cfg : Option String) (td td2 instr : String)
    (files files2 : List String) :
    (projectName td = projectName td2 →
      build_enhanced_prompt cfg td instr files
        = build_enhanced_prompt cfg td2 instr files)
  ∧ (infer_project_type files = infer_project_type files2 →
      ∃ pre suf,
        build_enhanced_prompt cfg td instr files
            = pre ++ filesSection files ++ suf
        ∧ build_enhanced_prompt cfg td instr files2
            = pre ++ filesSection files2 ++ suf) := by
  constructor
  · intro h
    unfold build_enhanced_prompt
    rw [h]
  · intro h
    refine ⟨promptPrefix ((infer_project_type files).getD "rust")
        (projectName td),
      promptSuffix ((infer_project_type files).getD "rust")
        (resolveTestCommand cfg ((infer_project_type files).getD "rust"))
        instr, rfl, ?_⟩
    unfold build_enhanced_prompt
    rw [← h]

/-- Counterexample to C6 as frozen: two calls with identical instruction,
identical file list and hence identical inferred project type, differing
only in the target directory, produce different built text (the role header
names the directory), so the claimed input basis is incomplete. -/
theorem claim_C6_counterexample :
    build_enhanced_prompt none "alpha" "do" ["src/lib.rs"]
      ≠ build_enhanced_prompt none "beta" "do" ["src/lib.rs"] := by
  intro h
  have h2 := congrArg (fun x => (String.toList x).take 80) h
  revert h2
  decide

/-- Concrete instance of C6 as amended: two directories with the same name
yield the same prompt, and swapping the file list for one of the same
inferred type only swaps the enumerated-files section. -/
theorem claim_C6_witness :
    (build_enhanced_prompt none "work/proj" "do" ["src/lib.rs"]
      = build_enhanced_prompt none "other/proj" "do" ["src/lib.rs"])
  ∧ ∃ pre suf,
      build_enhanced_prompt none "work/proj" "do" ["src/lib.rs"]
          = pre ++ filesSection ["src/lib.rs"] ++ suf
        ∧ build_enhanced_prompt none "work/proj" "do" ["src/main.rs", "src/tests.rs"]
          = pre ++ filesSection ["src/main.rs", "src/tests.rs"] ++ suf :=
  ⟨(claim_C6 none "work/proj" "other/proj" "do" ["src/lib.rs"] []).1 (by decide),
   (claim_C6 none "work/proj" "other/proj" "do" ["src/lib.rs"]
      ["src/main.rs", "src/tests.rs"]).2 (by decide)⟩

/-- Claim C7: when bootstrapping succeeds, every listed file exists
afterwards with its parent directory created as needed; no existing file
content is ever overwritten, and re-running bootstrapping on the resulting
tree changes no file and scaffolds nothing; a file that was absent is
created with content chosen by priority: explicit scaffold_content, else
inference from file_extension, else inference from the file extension of
the path itself, else the generic placeholder comment. -/
theorem claim_C7 (run : String → List String → Option Bool) (ct pt : Bool)
    (fs : FS) (s : EvolutionSettings) (fs' : FS)
    (h : (bootstrap_project run ct pt fs s).2 = Except.ok fs') :
    (∀ p c, fs.readFile p = some c → fs'.readFile p = some c)
  ∧ ((bootstrap_project run ct pt fs' s).2 = Except.ok fs'
      ∧ ∀ f, MEvent.scaffold f ∉ (bootstrap_project run ct pt fs' s).1)
  ∧ (∀ f ∈ s.files, fs'.existsFile f = true
      ∧ ∀ d, parentOf f = some d → fs'.hasDir d = true)
  ∧ (∀ f ∈ s.files, fs.readFile f = none →
      fs'.readFile f = some (scaffoldChoice s f))
  ∧ (∀ f c, s.scaffold_content = some c → scaffoldChoice s f = c)
  ∧ (∀ f e, s.scaffold_content = none → s.file_extension = some e →
      scaffoldChoice s f
        = (if e = ".rs" then "// TODO: Implement\n"
           else if e = ".py" then "# TODO: Implement\n"
           else "// TODO: Implement\n"))
  ∧ (∀ f, s.scaffold_content = none → s.file_extension = none →
      scaffoldChoice s f
        = (if endsWithS f ".rs" then "// TODO: Implement\n"
           else if endsWithS f ".py" then "# TODO: Implement\n"
           else "// TODO: Implement\n")) := by
  obtain ⟨hfs', hph⟩ := bootstrap_project_ok_shape run ct pt fs s fs' h
  subst hfs'
  have hnoop : scaffoldAll s (scaffoldAll s fs s.files).2 s.files
      = ([], (scaffoldAll s fs s.files).2) :=
    scaffoldAll_noop s _ s.files
      (fun f hf => scaffoldAll_exists_all s fs s.files f hf)
  refine ⟨?_, ⟨?_, ?_⟩, ?_, ?_, ?_, ?_, ?_⟩
  · intro p c hp
    exact scaffoldAll_read_preserve s fs s.files p c hp
  · rw [bootstrap_project_of_phase1_ok run ct pt _ s hph, hnoop]
  · intro f hfmem
    rw [bootstrap_project_of_phase1_ok run ct pt _ s hph, hnoop] at hfmem
    simp only [List.append_nil] at hfmem
    rcases bootstrapPhase1_events run ct pt s _ hfmem with ⟨p, a, hpa⟩ | ⟨it, hit⟩
    · cases hpa
    · cases hit
  · intro f hf
    exact scaffoldAll_exists_all s fs s.files f hf
  · intro f hf hn
    exact scaffoldAll_read_new s fs s.files f hf hn
  · intro f c hc
    unfold scaffoldChoice
    rw [hc]
  · intro f e hn he
    unfold scaffoldChoice infer_scaffold_content
    rw [hn, he]
  · intro f hn he
    unfold scaffoldChoice infer_scaffold_content
    rw [hn, he]

/-- Concrete instance of C7: a target directory already holding `keep.txt`
with content `old`, bootstrapped with files `src/lib.rs` and `keep.txt`
against an existing manifest: the missing file is scaffolded with the rust
placeholder, `keep.txt` keeps its content, and its directory facts hold. -/
theorem claim_C7_witness :
    (bootstrap_project allPassRun true false keepFS wsScaffold).2
        = Except.ok
            ⟨[("src/lib.rs", "// TODO: Implement\n"), ("keep.txt", "old")],
              ["src"]⟩
  ∧ (⟨[("src/lib.rs", "// TODO: Implement\n"), ("keep.txt", "old")],
        ["src"]⟩ : FS).readFile "keep.txt" = some "old"
  ∧ (⟨[("src/lib.rs", "// TODO: Implement\n"), ("keep.txt", "old")],
        ["src"]⟩ : FS).readFile "src/lib.rs"
      = some (scaffoldChoice wsScaffold "src/lib.rs") := by
  refine ⟨by decide, ?_, ?_⟩
  · exact (claim_C7 allPassRun true false keepFS wsScaffold _ (by decide)).1
      "keep.txt" "old" (by decide)
  · exact (claim_C7 allPassRun true false keepFS wsScaffold _
      (by decide)).2.2.2.1 "src/lib.rs" (by decide) (by decide)

theorem infer_project_type_eq_findSome (l : List String) :
    infer_project_type l = l.findSome? recognizeExt := by
  induction l with
  | nil => rfl
  | cons f rest ih =>
    rcases h1 : endsWithS f ".rs" with _ | _
    · rcases h2 : endsWithS f ".py" with _ | _
      · have hr : recognizeExt f = none := by
          unfold recognizeExt
          rw [h1, h2]
          simp
        rw [List.findSome?_cons, hr]
        unfold infer_project_type
        rw [h1, h2]
        simp [ih]
      · have hr : recognizeExt f = some "python" := by
          unfold recognizeExt
          rw [h1, h2]
          simp
        rw [List.findSome?_cons, hr]
        unfold infer_project_type
        rw [h1, h2]
        simp
    · have hr : recognizeExt f = some "rust" := by
        unfold recognizeExt
        rw [h1]
        simp
      rw [List.findSome?_cons, hr]
      unfold infer_project_type
      rw [h1]
      simp

/-- Claim C8: with no bootstrap command and no recognized manifest, the
acted-on project type is the explicit `project_type` when given, else the
type of the first listed file with a recognized extension (first match
wins, no recognized extension meaning unknown); a resolved rust type runs
the cargo initializer, whose non-zero exit or spawn failure is fatal, while
every other resolved type, python and unknown included, skips
initialization and proceeds; and files `[src/lib.rs]` with no explicit
type resolve to rust with the library-style initializer flag. -/
theorem claim_C8 (run : String → List String → Option Bool) (fs : FS)
    (s : EvolutionSettings) (hb : s.bootstrap_command = none) :
    (∀ t, s.project_type = some t → resolvedProjectType s = some t)
  ∧ (s.project_type = none →
      resolvedProjectType s = infer_project_type s.files)
  ∧ (∀ l, infer_project_type l = l.findSome? recognizeExt)
  ∧ (resolvedProjectType s = some "rust" →
      MEvent.cargoInit (cargoInitType s)
          ∈ (bootstrap_project run false false fs s).1
      ∧ (run "cargo" ["init", cargoInitType s] = some false →
          (bootstrap_project run false false fs s).2 = Except.error ())
      ∧ (run "cargo" ["init", cargoInitType s] = none →
          (bootstrap_project run false false fs s).2 = Except.error ())
      ∧ (run "cargo" ["init", cargoInitType s] = some true →
          (bootstrap_project run false false fs s).2
            = Except.ok (scaffoldAll s fs s.files).2))
  ∧ (∀ t, resolvedProjectType s = some t → t ≠ "rust" →
      (∀ it, MEvent.cargoInit it ∉ (bootstrap_project run false false fs s).1)
      ∧ (bootstrap_project run false false fs s).2
          = Except.ok (scaffoldAll s fs s.files).2)
  ∧ (resolvedProjectType s = none →
      (∀ it, MEvent.cargoInit it ∉ (bootstrap_project run false false fs s).1)
      ∧ (bootstrap_project run false false fs s).2
          = Except.ok (scaffoldAll s fs s.files).2)
  ∧ (s.project_type = none → s.files = ["src/lib.rs"] →
      resolvedProjectType s = some "rust" ∧ cargoInitType s = "--lib") := by
  have hphase : ∀ r1, bootstrapPhase1 run false false s = r1 →
      bootstrap_project run false false fs s
        = (r1.1 ++ (if r1.2 = Except.ok () then (scaffoldAll s fs s.files).1
            else []),
           if r1.2 = Except.ok () then Except.ok (scaffoldAll s fs s.files).2
           else Except.error ()) := by
    intro r1 hr1
    unfold bootstrap_project
    rw [hr1]
    rcases r1 with ⟨evs, r⟩
    cases r with
    | error e =>
      rcases e with ⟨⟩
      simp
    | ok u =>
      rcases u with ⟨⟩
      simp
  refine ⟨?_, ?_, infer_project_type_eq_findSome, ?_, ?_, ?_, ?_⟩
  · intro t ht
    unfold resolvedProjectType
    rw [ht]
  · intro ht
    unfold resolvedProjectType
    rw [ht]
  · intro hrust
    rcases hrun : run "cargo" ["init", cargoInitType s] with _ | (_ | _)
    · have hph : bootstrapPhase1 run false false s
          = ([MEvent.cargoInit (cargoInitType s)], Except.error ()) := by
        unfold bootstrapPhase1
        rw [hb, hrust]
        simp [hrun]
      refine ⟨?_, ?_, ?_, ?_⟩
      · rw [hphase _ hph]
        simp
      · intro hx
        simp at hx
      · intro hx
        rw [hphase _ hph]
        simp
      · intro hx
        simp at hx
    · have hph : bootstrapPhase1 run false false s
          = ([MEvent.cargoInit (cargoInitType s)], Except.error ()) := by
        unfold bootstrapPhase1
        rw [hb, hrust]
        simp [hrun]
      refine ⟨?_, ?_, ?_, ?_⟩
      · rw [hphase _ hph]
        simp
      · intro hx
        rw [hphase _ hph]
        simp
      · intro hx
        simp at hx
      · intro hx
        simp at hx
    · have hph : bootstrapPhase1 run false false s
          = ([MEvent.cargoInit (cargoInitType s)], Except.ok ()) := by
        unfold bootstrapPhase1
        rw [hb, hrust]
        simp [hrun]
      refine ⟨?_, ?_, ?_, ?_⟩
      · rw [hphase _ hph]
        simp
      · intro hx
        simp at hx
      · intro hx
        simp at hx
      · intro hx
        rw [hphase _ hph]
        simp
  · intro t ht hne
    have hph : bootstrapPhase1 run false false s = ([], Except.ok ()) := by
      unfold bootstrapPhase1
      rw [hb, ht]
      simp [hne]
    rw [hphase _ hph]
    constructor
    · intro it hit
      simp at hit
      rcases scaffoldAll_events s fs s.files _ hit with ⟨g, hg⟩
      cases hg
    · simp
  · intro ht
    have hph : bootstrapPhase1 run false false s = ([], Except.ok ()) := by
      unfold bootstrapPhase1
      rw [hb, ht]
      simp
    rw [hphase _ hph]
    constructor
    · intro it hit
      simp at hit
      rcases scaffoldAll_events s fs s.files _ hit with ⟨g, hg⟩
      cases hg
    · simp
  · intro hpt hfiles
    unfold resolvedProjectType cargoInitType
    rw [hpt, hfiles]
    exact ⟨by decide, by decide⟩

/-- Concrete instance of C8: no manifest, no explicit type, files
`[src/lib.rs]`: rust is inferred, the library-style cargo initializer runs
and, exiting zero, bootstrapping proceeds to scaffolding. -/
theorem claim_C8_witness :
    resolvedProjectType wSettings = some "rust"
  ∧ cargoInitType wSettings = "--lib"
  ∧ MEvent.cargoInit (cargoInitType wSettings)
      ∈ (bootstrap_project allPassRun false false emptyFS wSettings).1
  ∧ (bootstrap_project allPassRun false false emptyFS wSettings).2
      = Except.ok (scaffoldAll wSettings emptyFS wSettings.files).2 := by
  have h := claim_C8 allPassRun emptyFS wSettings rfl
  have hsc := h.2.2.2.2.2.2 rfl rfl
  have hrust := h.2.2.2.1 hsc.1
  exact ⟨hsc.1, hsc.2, hrust.1, hrust.2.2.2 rfl⟩

/-- Claim C10: with a bootstrap command configured, a spawned process that
exits non-zero is swallowed and bootstrapping proceeds to scaffolding; a
command whose executable cannot be spawned at all makes bootstrap_project
fail and aborts the whole run before any baseline is captured; and a
whitespace-only command is skipped without running anything. -/
theorem claim_C10 (s : EvolutionSettings) (w : MainWorld) (cmd : String)
    (hb : s.bootstrap_command = some cmd) :
    (∀ p args, tokens cmd = p :: args → w.run p args = some false →
      (bootstrap_project w.run w.cargoTomlExists w.pyprojectExists w.fs s).2
        = Except.ok (scaffoldAll s w.fs s.files).2)
  ∧ (∀ p args, tokens cmd = p :: args → w.run p args = none →
      bootstrap_project w.run w.cargoTomlExists w.pyprojectExists w.fs s
          = ([MEvent.bootCmd p args], Except.error ())
      ∧ mainRun s w = ([MEvent.bootCmd p args], Outcome.abortedBootstrap)
      ∧ ∀ x, MEvent.baseline x ∉ (mainRun s w).1)
  ∧ (tokens cmd = [] →
      bootstrapPhase1 w.run w.cargoTomlExists w.pyprojectExists s
          = ([], Except.ok ())
      ∧ (bootstrap_project w.run w.cargoTomlExists w.pyprojectExists w.fs s).2
        = Except.ok (scaffoldAll s w.fs s.files).2) := by
  refine ⟨?_, ?_, ?_⟩
  · intro p args htok hrun
    have hph : bootstrapPhase1 w.run w.cargoTomlExists w.pyprojectExists s
        = ([MEvent.bootCmd p args], Except.ok ()) := by
      unfold bootstrapPhase1
      rw [hb]
      simp [htok, hrun]
    rw [bootstrap_project_of_phase1_ok _ _ _ _ _ (by rw [hph])]
  · intro p args htok hrun
    have hbp : bootstrap_project w.run w.cargoTomlExists w.pyprojectExists w.fs s
        = ([MEvent.bootCmd p args], Except.error ()) := by
      unfold bootstrap_project bootstrapPhase1
      rw [hb]
      simp [htok, hrun]
    have hm : mainRun s w = ([MEvent.bootCmd p args], Outcome.abortedBootstrap) := by
      unfold mainRun
      rw [hbp]
    refine ⟨hbp, hm, ?_⟩
    intro x hx
    rw [hm] at hx
    simp at hx
  · intro htok
    have hph : bootstrapPhase1 w.run w.cargoTomlExists w.pyprojectExists s
        = ([], Except.ok ()) := by
      unfold bootstrapPhase1
      rw [hb]
      simp [htok]
    refine ⟨hph, ?_⟩
    rw [bootstrap_project_of_phase1_ok _ _ _ _ _ (by rw [hph])]

/-- Concrete instances of C10: the spawn-failing bootstrap command aborts
the run with no baseline event, the non-zero-exit command is swallowed, and
the whitespace-only command runs nothing. -/
theorem claim_C10_witness :
    mainRun wsBootCmd wWorldNoSpawn
        = ([MEvent.bootCmd "make" ["setup"]], Outcome.abortedBootstrap)
  ∧ (bootstrap_project wWorldFailRun.run wWorldFailRun.cargoTomlExists
        wWorldFailRun.pyprojectExists wWorldFailRun.fs wsBootCmd).2
      = Except.ok (scaffoldAll wsBootCmd wWorldFailRun.fs wsBootCmd.files).2
  ∧ bootstrapPhase1 wWorldNoSpawn.run wWorldNoSpawn.cargoTomlExists
        wWorldNoSpawn.pyprojectExists wsBootBlank
      = ([], Except.ok ()) := by
  refine ⟨?_, ?_, ?_⟩
  · exact ((claim_C10 wsBootCmd wWorldNoSpawn "make setup" rfl).2.1
      "make" ["setup"] (by decide) rfl).2.1
  · exact (claim_C10 wsBootCmd wWorldFailRun "make setup" rfl).1
      "make" ["setup"] (by decide) rfl
  · exact ((claim_C10 wsBootBlank wWorldNoSpawn "   " rfl).2.2 (by decide)).1
